import Mathlib

/-!
Verification of the minesible control-plane facade (`webapp/api/index.js`)
against its natural-language specification.

The JavaScript code is shallowly embedded: pure helper functions become Lean
functions over `String`/`List`; JavaScript truthiness, nullable values, and
object-as-map idioms are modelled explicitly (`Option`, association lists with
last-write-wins semantics); the asynchronous handlers become pure functions
from a request plus mocked orchestrator outcomes to a response together with an
ordered log of the orchestrator calls they issue.
-/

namespace Minesible

/-! ## JavaScript value and truthiness model -/

/-- A JavaScript value as it appears in a JSON request body.  Only the shapes
relevant to the embedded handlers are modelled. -/
inductive JSValue where
  | undefined
  | null
  | bool (b : Bool)
  | num (n : Int)
  | str (s : String)
deriving DecidableEq, Repr

/-- JavaScript truthiness: `undefined`, `null`, `false`, `0` and `""` are
falsy; everything else modelled here is truthy. -/
def JSValue.truthy : JSValue → Bool
  | .undefined => false
  | .null => false
  | .bool b => b
  | .num n => n != 0
  | .str s => s != ""

/-! ## Aggregate status (`determineOverallStatus`, index.js lines 545-561) -/

/-- Embeds `determineOverallStatus(opentofuStatus, ansibleStatus)`: the
if/else-if chain deriving a group's display status from its two member
states. -/
def determineOverallStatus (opentofuStatus ansibleStatus : String) : String :=
  if opentofuStatus = "FINISHED" ∧ ansibleStatus = "FINISHED" then "Ready"
  else if opentofuStatus = "FAILED" ∨ ansibleStatus = "FAILED" then "Failed"
  else if opentofuStatus = "UNCONFIRMED" ∨ ansibleStatus = "UNCONFIRMED" then
    "Pending Confirmation"
  else if opentofuStatus = "PLANNING" ∨ ansibleStatus = "PLANNING" then "Planning"
  else if opentofuStatus = "APPLYING" ∨ ansibleStatus = "APPLYING" then "Deploying"
  else if opentofuStatus = "Missing" ∨ ansibleStatus = "Missing" then "Incomplete"
  else "In Progress"

/-- Spec-side member status: the states named by the precedence table of
spec §4.3, the `Missing` sentinel, and a catch-all for any other state
string. -/
inductive MemberStatus where
  | finished
  | failed
  | unconfirmed
  | planning
  | applying
  | missing
  | otherState (s : String)
deriving DecidableEq, Repr

/-- Spec-side aggregate status enumeration (§4.3). -/
inductive AggregateStatus where
  | ready
  | failedAgg
  | pendingConfirmation
  | planningAgg
  | deploying
  | incomplete
  | inProgress
deriving DecidableEq, Repr

/-- Classifies a raw orchestrator state string into the spec's member-status
alphabet; the string "Missing" is the absent-member sentinel. -/
def classify (s : String) : MemberStatus :=
  if s = "FINISHED" then .finished
  else if s = "FAILED" then .failed
  else if s = "UNCONFIRMED" then .unconfirmed
  else if s = "PLANNING" then .planning
  else if s = "APPLYING" then .applying
  else if s = "Missing" then .missing
  else .otherState s

/-- Modelled from the spec: the §4.3 precedence table, evaluated top-down on
the pair (provisioningStatus, configurationStatus). -/
def specAggregate (p c : MemberStatus) : AggregateStatus :=
  if p = .finished ∧ c = .finished then .ready
  else if p = .failed ∨ c = .failed then .failedAgg
  else if p = .unconfirmed ∨ c = .unconfirmed then .pendingConfirmation
  else if p = .planning ∨ c = .planning then .planningAgg
  else if p = .applying ∨ c = .applying then .deploying
  else if p = .missing ∨ c = .missing then .incomplete
  else .inProgress

/-- Rendering of the spec's aggregate statuses as the display strings the
code returns. -/
def renderAggregate : AggregateStatus → String
  | .ready => "Ready"
  | .failedAgg => "Failed"
  | .pendingConfirmation => "Pending Confirmation"
  | .planningAgg => "Planning"
  | .deploying => "Deploying"
  | .incomplete => "Incomplete"
  | .inProgress => "In Progress"

/-- The source's status chain, re-expressed over the classified member
statuses; bridge between the string-level code and the spec table. -/
def aggOnClass (p c : MemberStatus) : String :=
  if p = .finished ∧ c = .finished then "Ready"
  else if p = .failed ∨ c = .failed then "Failed"
  else if p = .unconfirmed ∨ c = .unconfirmed then "Pending Confirmation"
  else if p = .planning ∨ c = .planning then "Planning"
  else if p = .applying ∨ c = .applying then "Deploying"
  else if p = .missing ∨ c = .missing then "Incomplete"
  else "In Progress"

/-! ## Stacks and grouping (`groupStacksByBlueprint`, index.js lines 436-542) -/

/-- One orchestrator-managed stack as returned by the `GetStacks` query.
`outputs` is `none` when the GraphQL field is null, otherwise the list of
`{id, value}` pairs in response order. -/
structure Stack where
  id : String
  name : String
  state : String
  createdAt : Nat
  outputs : Option (List (String × String))
  labels : List String
deriving DecidableEq, Repr

/-- The `{id, name, status}` record stored in a group's `opentofu` or
`ansible` slot. -/
structure MemberRef where
  id : String
  name : String
  status : String
deriving DecidableEq, Repr

/-- One entry of the grouped-server response: the object built per group key
inside `groupStacksByBlueprint`. -/
structure Group where
  id : String
  name : String
  status : String
  ip : Option String
  instanceType : String
  maxPlayers : String
  created : Option Nat
  opentofu : Option MemberRef
  ansible : Option MemberRef
  isManual : Bool
deriving DecidableEq, Repr

/-- `[A-Za-z0-9]`: the character class of the blueprint-token regex and of the
key-cleaning `replace(/[^A-Za-z0-9]/g, '')`. -/
def isAlnumChar (c : Char) : Bool := c.isAlpha || c.isDigit

/-- `name.replace(/[^A-Za-z0-9]/g, '')`. -/
def stripNonAlnum (s : String) : String := String.mk (s.toList.filter isAlnumChar)

/-- `name.match(/Blueprint-([A-Za-z0-9]+)$/)`: succeeds exactly when the name
ends in `Blueprint-` followed by a nonempty alphanumeric run, and captures
that run. -/
def blueprintToken (name : String) : Option String :=
  let rev := name.toList.reverse
  let tokRev := rev.takeWhile isAlnumChar
  let rest := rev.dropWhile isAlnumChar
  if tokRev.isEmpty then none
  else if "Blueprint-".toList.reverse.isPrefixOf rest then
    some (String.mk tokRev.reverse)
  else none

/-- Case-insensitive match of the role alternation `(Opentofu|Ansible)` at the
head of the character list, returning the matched length. -/
def matchRole (cs : List Char) : Option Nat :=
  if (cs.take 8).map Char.toLower = "opentofu".toList then some 8
  else if (cs.take 7).map Char.toLower = "ansible".toList then some 7
  else none

/-- Scanner for `/^(.*?)-(Opentofu|Ansible)(-.*)?$/i`: walks the name left to
right (lazy `.*?`), and at each `-` tries the role alternation followed by the
end-or-dash boundary required by `(-.*)?$`.  Returns the captured base and
suffix (the suffix keeps its leading dash, as the capture group does). -/
def manualScan (acc : List Char) : List Char → Option (List Char × List Char)
  | [] => none
  | c :: rest =>
    if c = '-' then
      match matchRole rest with
      | some n =>
        let after := rest.drop n
        if after.isEmpty || after.head? = some '-' then
          some (acc.reverse, after)
        else
          manualScan (c :: acc) rest
      | none => manualScan (c :: acc) rest
    else
      manualScan (c :: acc) rest

/-- `name.match(/^(.*?)-(Opentofu|Ansible)(-.*)?$/i)`, reduced to the
captures the code uses: `(baseName, suffix)`. -/
def manualMatch (name : String) : Option (String × String) :=
  match manualScan [] name.toList with
  | some (base, suffix) => some (String.mk base, String.mk suffix)
  | none => none

/-- The group key / group name / isManual derivation of
`groupStacksByBlueprint` (index.js lines 440-467), per stack name. -/
def deriveGroupKey (name : String) : String × String × Bool :=
  match blueprintToken name with
  | some tok => (tok, "Blueprint-" ++ tok, false)
  | none =>
    match manualMatch name with
    | some (base, suffix) =>
      (stripNonAlnum (base ++ suffix), "Manual-" ++ base ++ suffix, true)
    | none => (stripNonAlnum name, "Individual-" ++ name, true)

/-- The fresh group object created on first sight of a key. -/
def emptyGroup (key gname : String) (isManual : Bool) : Group :=
  { id := key, name := gname, status := "Unknown", ip := none,
    instanceType := "unknown", maxPlayers := "unknown", created := none,
    opentofu := none, ansible := none, isManual := isManual }

/-- Contiguous-subsequence test on character lists, used to model
`String.prototype.includes`. -/
def containsSeq (s pat : List Char) : Bool :=
  match s with
  | [] => pat.isEmpty
  | _ :: rest => pat.isPrefixOf s || containsSeq rest pat

/-- `stack.name.toLowerCase().includes(pat)`. -/
def nameContains (name pat : String) : Bool :=
  containsSeq (name.toList.map Char.toLower) pat.toList

/-- The `outputs.reduce((acc, o) => {acc[o.id] = o.value; ...}, {})` object:
property lookup where a later assignment to the same id wins. -/
def lookupLastOut : List (String × String) → String → Option String
  | [], _ => none
  | (k, v) :: rest, key =>
    match lookupLastOut rest key with
    | some r => some r
    | none => if k = key then some v else none

/-- `x || null` on a possibly-absent string property: empty strings and
missing properties both collapse to null. -/
def jsOrNone (v : Option String) : Option String :=
  match v with
  | some s => if s = "" then none else some s
  | none => none

/-- `x || d` on a possibly-absent string property with a string default. -/
def jsOrDefault (v : Option String) (d : String) : String :=
  match v with
  | some s => if s = "" then d else s
  | none => d

/-- JavaScript falsiness of the group's `created` field (`!groups[k].created`):
null and the number 0 are falsy. -/
def createdFalsy : Option Nat → Bool
  | none => true
  | some n => n == 0

/-- `group.opentofu?.status || 'Missing'` (and likewise for ansible): absent
member or falsy status collapses to the `Missing` sentinel. -/
def statusOrMissing : Option MemberRef → String
  | none => "Missing"
  | some m => if m.status = "" then "Missing" else m.status

/-- The member record pushed into a slot for a stack. -/
def mkRef (s : Stack) : MemberRef := ⟨s.id, s.name, s.state⟩

/-- The member-attachment body of `groupStacksByBlueprint` (index.js lines
485-528): role dispatch by substring, output extraction for the
provisioning-role branch, `created` handling, and the final status
recomputation from the updated slots. -/
def attachMember (g : Group) (s : Stack) : Group :=
  let g' :=
    if nameContains s.name "opentofu" then
      let outs := s.outputs.getD []
      { g with
        opentofu := some (mkRef s),
        ip := jsOrNone (lookupLastOut outs "ec2_ip"),
        instanceType := jsOrDefault (lookupLastOut outs "instance_type") "unknown",
        maxPlayers := jsOrDefault (lookupLastOut outs "max_players") "unknown",
        created := some s.createdAt }
    else if nameContains s.name "ansible" then
      { g with
        ansible := some (mkRef s),
        created := if createdFalsy g.created then some s.createdAt else g.created }
    else
      { g with opentofu := some (mkRef s), created := some s.createdAt }
  { g' with
    status := determineOverallStatus (statusOrMissing g'.opentofu) (statusOrMissing g'.ansible) }

/-- Lookup in the `groups` object, modelled as an insertion-ordered
association list. -/
def findGroup (key : String) : List (String × Group) → Option Group
  | [] => none
  | (k, g) :: rest => if k = key then some g else findGroup key rest

/-- In-place update of the value stored under `key`. -/
def updateGroup (key : String) (f : Group → Group) :
    List (String × Group) → List (String × Group)
  | [] => []
  | (k, g) :: rest =>
    if k = key then (k, f g) :: rest else (k, g) :: updateGroup key f rest

/-- One iteration of the `stacks.forEach` loop: derive the key, skip the stack
when the key is the empty string (falsy `if (groupKey)` guard), create the
group object on first sight, then attach the member. -/
def attachStack (groups : List (String × Group)) (s : Stack) :
    List (String × Group) :=
  let kni := deriveGroupKey s.name
  let key := kni.1
  if key = "" then groups
  else
    let groups' :=
      match findGroup key groups with
      | none => groups ++ [(key, emptyGroup key kni.2.1 kni.2.2)]
      | some _ => groups
    updateGroup key (fun g => attachMember g s) groups'

/-- The accumulated `groups` object after the whole `forEach`. -/
def buildGroups (sl : List Stack) : List (String × Group) :=
  sl.foldl attachStack []

/-- The sort comparator (index.js lines 534-538) as a boolean "a comes no
later than b" relation: manual groups after blueprint groups, ties broken by
display name (`localeCompare` modelled as lexicographic string order). -/
def jsSortLE (a b : Group) : Bool :=
  if a.isManual = b.isManual then decide (a.name ≤ b.name) else !a.isManual

/-- The comparator as a decidable relation, for the stable sort. -/
def jsSortRel (a b : Group) : Prop := jsSortLE a b = true

instance : DecidableRel jsSortRel := fun _ _ =>
  inferInstanceAs (Decidable (_ = true))

instance : IsTotal Group jsSortRel where
  total a b := by
    unfold jsSortRel jsSortLE
    by_cases h : a.isManual = b.isManual
    · rw [if_pos h, if_pos h.symm]
      simpa using le_total a.name b.name
    · rw [if_neg h, if_neg (Ne.symm h)]
      cases ha : a.isManual <;> cases hb : b.isManual <;> simp_all

instance : IsTrans Group jsSortRel where
  trans a b c hab hbc := by
    unfold jsSortRel jsSortLE at *
    by_cases h₁ : a.isManual = b.isManual <;> by_cases h₂ : b.isManual = c.isManual
    · rw [if_pos h₁] at hab
      rw [if_pos h₂] at hbc
      rw [if_pos (h₁.trans h₂)]
      simp only [decide_eq_true_eq] at *
      exact le_trans hab hbc
    · rw [if_neg h₂] at hbc
      rw [if_neg (fun hac => h₂ (h₁.symm.trans hac))]
      rw [h₁]
      exact hbc
    · rw [if_neg h₁] at hab
      rw [if_neg (fun hac => h₁ (hac.trans h₂.symm))]
      exact hab
    · rw [if_neg h₁] at hab
      rw [if_neg h₂] at hbc
      cases ha : a.isManual <;> cases hb : b.isManual <;> simp_all


/-- `groupStacksByBlueprint(stacks)`: the full grouping pipeline —
accumulate groups in insertion order, take `Object.values`, then the
`Array.prototype.sort` call, modelled as a stable sort by the comparator
(the output of any stable sort under a total preorder is unique, so the
choice of stable algorithm is immaterial). -/
def groupStacksByBlueprint (sl : List Stack) : List Group :=
  ((buildGroups sl).map Prod.snd).insertionSort jsSortRel

/-! ## Group-mode teardown (DELETE `/api/servers/:serverId`, index.js lines
834-963).  The two resolved stacks, the mocked orchestrator outcomes for the
save task and the per-stack destroy mutations, and the ordered log of
suspension points (calls and sleeps) are made explicit. -/

/-- An observable step of the teardown sequence, in execution order. -/
inductive TeardownEvent where
  | saveTask (stackId : String)
  | settleDelay (ms : Nat)
  | destroyCall (stackId : String)
deriving DecidableEq, Repr

/-- One entry pushed into `destroyResults`: either
`{stack, stackId, deleted: true, result}` or `{stack, stackId, error}`. -/
structure DestroyResult where
  stack : String
  stackId : String
  deleted : Bool
  error : Option String
deriving DecidableEq, Repr

/-- The response envelope of the group-mode delete handler. -/
structure GroupTeardownResult where
  success : Bool
  message : String
  destroyResults : List DestroyResult
  worldSaved : Bool
  events : List TeardownEvent
deriving DecidableEq, Repr

/-- The world-save phase (index.js lines 869-901): trigger the save task when
requested and the ansible stack is `FINISHED`, sleep 10 s only when the
trigger call succeeded, and produce `saveMessage`.  Returns the event log of
the phase and the message. -/
def savePhase (saveWorld : Bool) (ansibleStack : Option Stack)
    (saveOutcome : Except String String) : List TeardownEvent × String :=
  match ansibleStack with
  | some a =>
    if saveWorld && (a.state == "FINISHED") then
      match saveOutcome with
      | .ok _ => ([.saveTask a.id, .settleDelay 10000], "World saved to S3 before deletion. ")
      | .error _ => ([.saveTask a.id], "World save failed but continuing with deletion. ")
    else if saveWorld then
      ([], "World save requested but server not available for saving. ")
    else ([], "World not saved (user choice). ")
  | none =>
    if saveWorld then ([], "World save requested but server not available for saving. ")
    else ([], "World not saved (user choice). ")

/-- One destroy attempt (`spaceliftQuery(destroyStackMutation, ...)` inside
`try`/`catch`): the pushed `destroyResults` entry. -/
def destroyAttempt (roleTag : String) (stackId : String)
    (outcome : Except String Unit) : DestroyResult :=
  match outcome with
  | .ok _ => ⟨roleTag, stackId, true, none⟩
  | .error msg => ⟨roleTag, stackId, false, some msg⟩

/-- The destroy phase (index.js lines 903-954): ansible first when present,
then a 10 s settle delay only when both stacks are present, then opentofu. -/
def destroyPhase (ansibleStack openTofuStack : Option Stack)
    (destroyOutcome : String → Except String Unit) :
    List TeardownEvent × List DestroyResult :=
  let step₁ : List TeardownEvent × List DestroyResult :=
    match ansibleStack with
    | some a => ([.destroyCall a.id], [destroyAttempt "ansible" a.id (destroyOutcome a.id)])
    | none => ([], [])
  let step₂ : List TeardownEvent × List DestroyResult :=
    match openTofuStack with
    | some o =>
      let delayEv : List TeardownEvent :=
        if ansibleStack.isSome then [.settleDelay 10000] else []
      (delayEv ++ [.destroyCall o.id],
       [destroyAttempt "opentofu" o.id (destroyOutcome o.id)])
    | none => ([], [])
  (step₁.1 ++ step₂.1, step₁.2 ++ step₂.2)

/-- `saveMessage.includes('saved')`. -/
def messageMentionsSaved (msg : String) : Bool :=
  containsSeq msg.toList "saved".toList

/-- The group-mode branch of the delete handler, from stack resolution
results onward: save phase, destroy phase, and the final
`res.json({success: true, ...})` envelope. -/
def groupTeardown (saveWorld : Bool) (ansibleStack openTofuStack : Option Stack)
    (saveOutcome : Except String String)
    (destroyOutcome : String → Except String Unit) : GroupTeardownResult :=
  let (saveEvents, saveMessage) := savePhase saveWorld ansibleStack saveOutcome
  let (destroyEvents, results) := destroyPhase ansibleStack openTofuStack destroyOutcome
  { success := true,
    message := saveMessage ++ "Server deletion initiated.",
    destroyResults := results,
    worldSaved := saveWorld && messageMentionsSaved saveMessage,
    events := saveEvents ++ destroyEvents }

/-! ## JWT token cache (`getJWTToken`, index.js lines 34-76) -/

/-- The process-wide mutable cache `currentJWT` / `jwtExpiry`; `none` models
the initial `null`s. -/
structure TokenCache where
  currentJWT : Option String
  jwtExpiry : Option Nat
deriving DecidableEq, Repr

/-- The fixed validity window stored by the code:
`Date.now() + (50 * 60 * 1000)`. -/
def JWT_VALIDITY_MS : Nat := 50 * 60 * 1000

/-- `currentJWT && jwtExpiry && Date.now() < jwtExpiry`, with JavaScript
truthiness on the cached string and number. -/
def cacheValid (st : TokenCache) (now : Nat) : Bool :=
  match st.currentJWT, st.jwtExpiry with
  | some j, some e => j != "" && e != 0 && decide (now < e)
  | _, _ => false

/-- `getJWTToken()`: returns the cached credential when valid; otherwise
performs the credential-exchange call (`exchange` is the mocked outcome of
the `apiKeyUser` mutation), stores the new token and expiry, and returns it.
The result carries the returned token, the cache state after the call, and
the number of exchange calls issued (0 or 1).  A failed exchange propagates
the error and leaves the cache unchanged. -/
def getJWTToken (st : TokenCache) (now : Nat)
    (exchange : Except String String) :
    Except String (String × TokenCache × Nat) :=
  if cacheValid st now then
    .ok (st.currentJWT.getD "", st, 0)
  else
    match exchange with
    | .ok jwt => .ok (jwt, ⟨some jwt, some (now + JWT_VALIDITY_MS)⟩, 1)
    | .error msg => .error msg

/-! ## Deploy validation (POST `/api/deploy`, index.js lines 255-392) -/

/-- The destructured request body of the deploy handler. -/
structure DeployBody where
  instanceType : JSValue
  s3Bucket : JSValue
  motd : JSValue
  maxPlayers : JSValue
deriving DecidableEq, Repr

/-- An orchestrator call issued by the deploy handler, in order. -/
inductive DeployCall where
  | getBlueprint
  | createStack (attempt : Nat)
deriving DecidableEq, Repr

/-- Mocked orchestrator outcomes for the deploy handler: the blueprint
lookup and the three `blueprintCreateStack` attempts. -/
structure DeployMock where
  blueprint : Except String Unit
  create1 : Except String (List String)
  create2 : Except String (List String)
  create3 : Except String (List String)
deriving Repr

/-- The response envelope of the deploy handler. -/
structure DeployResponse where
  status : Nat
  success : Bool
  error : Option String
  stackId : Option String
  allStackIds : List String
deriving DecidableEq, Repr

/-- The deploy handler: field validation (JavaScript truthiness on each
required field), then the blueprint query, then up to three creation
attempts, each tried only after the previous one threw.  Returns the
response and the ordered orchestrator call log. -/
def deployHandler (body : DeployBody) (mock : DeployMock) :
    DeployResponse × List DeployCall :=
  if !body.instanceType.truthy || !body.s3Bucket.truthy ||
      !body.motd.truthy || !body.maxPlayers.truthy then
    (⟨400, false, some "Missing required fields", none, []⟩, [])
  else
    match mock.blueprint with
    | .error msg => (⟨500, false, some msg, none, []⟩, [.getBlueprint])
    | .ok _ =>
      let calls₀ : List DeployCall := [.getBlueprint, .createStack 1]
      match mock.create1 with
      | .ok ids => (⟨200, true, none, ids.head?, ids⟩, calls₀)
      | .error _ =>
        let calls₁ := calls₀ ++ [.createStack 2]
        match mock.create2 with
        | .ok ids => (⟨200, true, none, ids.head?, ids⟩, calls₁)
        | .error _ =>
          let calls₂ := calls₁ ++ [.createStack 3]
          match mock.create3 with
          | .ok ids => (⟨200, true, none, ids.head?, ids⟩, calls₂)
          | .error msg => (⟨500, false, some msg, none, []⟩, calls₂)

/-! ## Concrete fixtures and grouping invariants -/

/-- Concrete provisioning-role stack, attached second, created at time 7. -/
def c5OpentofuStack : Stack :=
  ⟨"st1", "Minesible-Opentofu-Blueprint-ab12", "FINISHED", 7,
    some [("ec2_ip", "1.2.3.4")], ["minesible"]⟩

/-- Concrete configuration-role stack, attached first, created at time 5. -/
def c5AnsibleStack : Stack :=
  ⟨"st2", "Minesible-Ansible-Blueprint-ab12", "FINISHED", 5, none, ["minesible"]⟩

/-- Provisioning-role stack with a null `outputs` field. -/
def c6Stack : Stack :=
  ⟨"st3", "Minesible-Opentofu-Blueprint-zz9", "FINISHED", 3, none, ["minesible"]⟩

/-- The group key derived for a stack. -/
def deriveKey (s : Stack) : String := (deriveGroupKey s.name).1

/-- Provenance of a group keyed `k`: the id matches the key and every filled
member slot holds a stack of `v` whose derived key is `k`. -/
def GroupOK (v : List Stack) (k : String) (g : Group) : Prop :=
  g.id = k ∧
  (∀ m, g.opentofu = some m → ∃ s, s ∈ v ∧ deriveKey s = k ∧ mkRef s = m) ∧
  (∀ m, g.ansible = some m → ∃ s, s ∈ v ∧ deriveKey s = k ∧ mkRef s = m)

/-- Invariant of the accumulated groups object with respect to a universe `v`
of input stacks: keys are distinct, and every group is keyed consistently,
has at least one member slot filled, and has provenance-correct slots. -/
def InvGroups (v : List Stack) (acc : List (String × Group)) : Prop :=
  (acc.map Prod.fst).Nodup ∧
  ∀ p ∈ acc, GroupOK v p.1 p.2 ∧ (p.2.opentofu.isSome ∨ p.2.ansible.isSome)

/-! ### Status-derivation lemmas -/

theorem classify_finished_iff (s : String) : classify s = .finished ↔ s = "FINISHED" := by
  unfold classify; split_ifs <;> simp_all

theorem classify_failed_iff (s : String) : classify s = .failed ↔ s = "FAILED" := by
  unfold classify; split_ifs <;> simp_all

theorem classify_unconfirmed_iff (s : String) : classify s = .unconfirmed ↔ s = "UNCONFIRMED" := by
  unfold classify; split_ifs <;> simp_all

theorem classify_planning_iff (s : String) : classify s = .planning ↔ s = "PLANNING" := by
  unfold classify; split_ifs <;> simp_all

theorem classify_applying_iff (s : String) : classify s = .applying ↔ s = "APPLYING" := by
  unfold classify; split_ifs <;> simp_all

theorem classify_missing_iff (s : String) : classify s = .missing ↔ s = "Missing" := by
  unfold classify; split_ifs <;> simp_all

theorem determineOverallStatus_eq_aggOnClass (p c : String) :
    determineOverallStatus p c = aggOnClass (classify p) (classify c) := by
  unfold determineOverallStatus aggOnClass
  simp only [classify_finished_iff, classify_failed_iff, classify_unconfirmed_iff,
    classify_planning_iff, classify_applying_iff, classify_missing_iff]

theorem aggOnClass_eq_spec (p c : MemberStatus) :
    aggOnClass p c = renderAggregate (specAggregate p c) := by
  cases p <;> cases c <;> rfl

theorem determineOverallStatus_eq_spec (p c : String) :
    determineOverallStatus p c =
      renderAggregate (specAggregate (classify p) (classify c)) := by
  rw [determineOverallStatus_eq_aggOnClass, aggOnClass_eq_spec]

/-! ## Claim theorems -/

/-- C1: for every pair (provisioningStatus, configurationStatus), each
defaulting to the `Missing` sentinel when the corresponding member is absent,
the aggregate status computed by `determineOverallStatus` equals the first
matching rule of the spec's precedence table (§4.3), evaluated top-down. -/
theorem aggregate_status_matches_precedence_table :
    statusOrMissing none = "Missing" ∧
    ∀ p c : String, determineOverallStatus p c =
      renderAggregate (specAggregate (classify p) (classify c)) :=
  ⟨rfl, determineOverallStatus_eq_spec⟩

/-- C4 counterexample: for the pair (Applying, Missing) the code returns
"Deploying", not "Incomplete" — the Applying rule fires before the Missing
rule, exactly as the precedence table orders them. -/
theorem applying_missing_not_incomplete :
    determineOverallStatus "APPLYING" "Missing" ≠ "Incomplete" := by
  decide

/-- C4 amended: for the status pair (Applying, Missing) the derived aggregate
status is Deploying (the `either Applying → Deploying` rule precedes the
`either Missing → Incomplete` rule). -/
theorem applying_missing_is_deploying :
    determineOverallStatus "APPLYING" "Missing" = "Deploying" := by
  decide

/-- C9: starting from an invalid cache, `getJWTToken` performs one exchange,
stores the credential with expiry equal to acquisition time plus the fixed
validity window, and a second call made while `now < expiry` returns the
identical credential without consulting the exchange at all — one exchange
call in total. -/
theorem token_cache_single_exchange (st₀ : TokenCache) (t₀ t₁ : Nat)
    (jwt : String) (hmiss : cacheValid st₀ t₀ = false) (hjwt : jwt ≠ "")
    (hwin : t₁ < t₀ + JWT_VALIDITY_MS) :
    getJWTToken st₀ t₀ (.ok jwt) =
      .ok (jwt, ⟨some jwt, some (t₀ + JWT_VALIDITY_MS)⟩, 1) ∧
    ∀ exchange₂,
      getJWTToken ⟨some jwt, some (t₀ + JWT_VALIDITY_MS)⟩ t₁ exchange₂ =
        .ok (jwt, ⟨some jwt, some (t₀ + JWT_VALIDITY_MS)⟩, 0) := by
  constructor
  · unfold getJWTToken
    simp [hmiss]
  · intro exchange₂
    have hvalid : cacheValid ⟨some jwt, some (t₀ + JWT_VALIDITY_MS)⟩ t₁ = true := by
      unfold cacheValid JWT_VALIDITY_MS
      simp only [Bool.and_eq_true, bne_iff_ne, ne_eq, decide_eq_true_eq]
      refine ⟨⟨hjwt, ?_⟩, hwin⟩
      omega
    unfold getJWTToken
    simp [hvalid]

theorem token_cache_single_exchange_witness :
    getJWTToken ⟨none, none⟩ 0 (.ok "tok") =
      .ok ("tok", ⟨some "tok", some (0 + JWT_VALIDITY_MS)⟩, 1) ∧
    ∀ exchange₂,
      getJWTToken ⟨some "tok", some (0 + JWT_VALIDITY_MS)⟩ 1 exchange₂ =
        .ok ("tok", ⟨some "tok", some (0 + JWT_VALIDITY_MS)⟩, 0) :=
  token_cache_single_exchange ⟨none, none⟩ 0 1 "tok" (by decide) (by decide)
    (by decide)

/-- C10: any deploy request in which one of the four required fields is
absent or JavaScript-falsy is answered with status 400,
`{success: false, error: 'Missing required fields'}`, and no orchestrator
call is issued — regardless of how the orchestrator would have answered. -/
theorem deploy_rejects_falsy_fields (body : DeployBody) (mock : DeployMock)
    (h : body.instanceType.truthy = false ∨ body.s3Bucket.truthy = false ∨
         body.motd.truthy = false ∨ body.maxPlayers.truthy = false) :
    deployHandler body mock =
      (⟨400, false, some "Missing required fields", none, []⟩, []) := by
  unfold deployHandler
  rcases h with h | h | h | h <;> simp [h]

theorem deploy_rejects_falsy_fields_witness :
    deployHandler
        ⟨.str "t3.large", .str "my-bucket", .str "welcome", .num 0⟩
        ⟨.ok (), .ok ["sid"], .ok ["sid"], .ok ["sid"]⟩ =
      (⟨400, false, some "Missing required fields", none, []⟩, []) :=
  deploy_rejects_falsy_fields _ _ (.inr (.inr (.inr (by decide))))

/-- The save phase emits only save-task and settle-delay events, never a
destroy call. -/
theorem savePhase_no_destroy (saveWorld : Bool) (aStk : Option Stack)
    (so : Except String String) (e : TeardownEvent)
    (he : e ∈ (savePhase saveWorld aStk so).1) :
    ∀ sid, e ≠ .destroyCall sid := by
  intro sid hcontra
  subst hcontra
  rcases aStk with _ | a
  · cases hsw : saveWorld <;> rcases so with m | j <;>
      simp [savePhase, hsw] at he
  · cases hsw : saveWorld <;> cases hst : (a.state == "FINISHED") <;>
      rcases so with m | j <;> simp [savePhase, hsw, hst] at he

/-- C2: in a group-mode teardown with both members present, the event log is
the save-phase events (which contain no destroy call) followed by the
configuration-role destroy, the 10 s settle delay, and the provisioning-role
destroy — so the configuration-role destroy always precedes the
provisioning-role destroy, with a settle delay between them. -/
theorem group_teardown_destroy_order (saveWorld : Bool) (a o : Stack)
    (saveOutcome : Except String String)
    (destroyOutcome : String → Except String Unit) :
    (groupTeardown saveWorld (some a) (some o) saveOutcome destroyOutcome).events =
      (savePhase saveWorld (some a) saveOutcome).1 ++
        [.destroyCall a.id, .settleDelay 10000, .destroyCall o.id] ∧
    ∀ e ∈ (savePhase saveWorld (some a) saveOutcome).1,
      ∀ sid, e ≠ TeardownEvent.destroyCall sid := by
  constructor
  · unfold groupTeardown destroyPhase
    simp
  · intro e he
    exact savePhase_no_destroy saveWorld (some a) saveOutcome e he

theorem group_teardown_destroy_order_witness :
    (groupTeardown false (some ⟨"a1", "Minesible-Ansible-Blueprint-q", "FINISHED", 1, none, ["minesible"]⟩)
        (some ⟨"o1", "Minesible-Opentofu-Blueprint-q", "FINISHED", 1, none, ["minesible"]⟩)
        (.ok "t") (fun _ => .ok ())).events =
      (savePhase false (some ⟨"a1", "Minesible-Ansible-Blueprint-q", "FINISHED", 1, none, ["minesible"]⟩) (.ok "t")).1 ++
        [.destroyCall "a1", .settleDelay 10000, .destroyCall "o1"] ∧
    ∀ e ∈ (savePhase false (some ⟨"a1", "Minesible-Ansible-Blueprint-q", "FINISHED", 1, none, ["minesible"]⟩) (.ok "t")).1,
      ∀ sid, e ≠ TeardownEvent.destroyCall sid :=
  group_teardown_destroy_order false _ _ (.ok "t") (fun _ => .ok ())

/-- C3: when the configuration-role destroy fails, the provisioning-role
destroy call is still issued, the envelope still reports `success: true`,
and `destroyResults` records exactly one error-tagged entry for the failed
configuration-role unit. -/
theorem group_teardown_partial_failure (saveWorld : Bool) (a o : Stack)
    (saveOutcome : Except String String)
    (destroyOutcome : String → Except String Unit) (msg : String)
    (hfail : destroyOutcome a.id = .error msg) :
    TeardownEvent.destroyCall o.id ∈
      (groupTeardown saveWorld (some a) (some o) saveOutcome destroyOutcome).events ∧
    (groupTeardown saveWorld (some a) (some o) saveOutcome destroyOutcome).success = true ∧
    DestroyResult.mk "ansible" a.id false (some msg) ∈
      (groupTeardown saveWorld (some a) (some o) saveOutcome destroyOutcome).destroyResults ∧
    ((groupTeardown saveWorld (some a) (some o) saveOutcome
        destroyOutcome).destroyResults.filter
      (fun dr => dr.stack == "ansible" && dr.error.isSome)).length = 1 := by
  unfold groupTeardown destroyPhase
  refine ⟨by simp, by simp, ?_, ?_⟩
  · simp [hfail, destroyAttempt]
  · simp only
    rw [hfail]
    cases houtcome : destroyOutcome o.id <;> simp [destroyAttempt, houtcome]

theorem group_teardown_partial_failure_witness :
    TeardownEvent.destroyCall "o1" ∈
      (groupTeardown false (some ⟨"a1", "Minesible-Ansible-Blueprint-q", "FINISHED", 1, none, ["minesible"]⟩)
        (some ⟨"o1", "Minesible-Opentofu-Blueprint-q", "FINISHED", 1, none, ["minesible"]⟩)
        (.ok "t") (fun i => if i = "a1" then .error "boom" else .ok ())).events ∧
    (groupTeardown false (some ⟨"a1", "Minesible-Ansible-Blueprint-q", "FINISHED", 1, none, ["minesible"]⟩)
        (some ⟨"o1", "Minesible-Opentofu-Blueprint-q", "FINISHED", 1, none, ["minesible"]⟩)
        (.ok "t") (fun i => if i = "a1" then .error "boom" else .ok ())).success = true ∧
    DestroyResult.mk "ansible" "a1" false (some "boom") ∈
      (groupTeardown false (some ⟨"a1", "Minesible-Ansible-Blueprint-q", "FINISHED", 1, none, ["minesible"]⟩)
        (some ⟨"o1", "Minesible-Opentofu-Blueprint-q", "FINISHED", 1, none, ["minesible"]⟩)
        (.ok "t") (fun i => if i = "a1" then .error "boom" else .ok ())).destroyResults ∧
    ((groupTeardown false (some ⟨"a1", "Minesible-Ansible-Blueprint-q", "FINISHED", 1, none, ["minesible"]⟩)
        (some ⟨"o1", "Minesible-Opentofu-Blueprint-q", "FINISHED", 1, none, ["minesible"]⟩)
        (.ok "t") (fun i => if i = "a1" then .error "boom" else .ok ())).destroyResults.filter
      (fun dr => dr.stack == "ansible" && dr.error.isSome)).length = 1 :=
  group_teardown_partial_failure false _ _ (.ok "t")
    (fun i => if i = "a1" then .error "boom" else .ok ()) "boom" (by simp)

/-- C5 counterexample: the configuration-role unit (timestamp 5) is the
first member attached to the group, yet the resulting group's created field
is 7 — the provisioning-role unit attached later overwrote it. -/
theorem group_created_overwritten_counterexample :
    c5AnsibleStack.createdAt = 5 ∧
    (groupStacksByBlueprint [c5AnsibleStack, c5OpentofuStack]).map Group.created =
      [some 7] := by
  constructor
  · rfl
  · decide

/-- C5 amended: the group's created field holds the provisioning-role
member's timestamp whenever such a member is attached, in either attachment
order — a provisioning-role member attached later overwrites it, while a
configuration-role member attached later leaves a truthy value in place. -/
theorem group_created_provisioning_wins (g : Group) (s₁ s₂ : Stack)
    (h₁ : nameContains s₁.name "opentofu" = false)
    (h₁' : nameContains s₁.name "ansible" = true)
    (h₂ : nameContains s₂.name "opentofu" = true)
    (hnz : s₂.createdAt ≠ 0) :
    (attachMember (attachMember g s₁) s₂).created = some s₂.createdAt ∧
    (attachMember (attachMember g s₂) s₁).created = some s₂.createdAt := by
  constructor
  · unfold attachMember
    simp [h₂]
  · unfold attachMember
    simp [h₁, h₁', h₂, createdFalsy, hnz]

theorem group_created_provisioning_wins_witness :
    (attachMember (attachMember (emptyGroup "ab12" "Blueprint-ab12" false)
        c5AnsibleStack) c5OpentofuStack).created = some c5OpentofuStack.createdAt ∧
    (attachMember (attachMember (emptyGroup "ab12" "Blueprint-ab12" false)
        c5OpentofuStack) c5AnsibleStack).created = some c5OpentofuStack.createdAt :=
  group_created_provisioning_wins (emptyGroup "ab12" "Blueprint-ab12" false)
    c5AnsibleStack c5OpentofuStack (by decide) (by decide) (by decide) (by decide)

/-- C6 counterexample: a provisioning-role unit with no outputs yields a
group whose ip is null (`none`) — not the "unknown" sentinel the claim
demands — while instanceType and maxPlayers do get the sentinel. -/
theorem group_ip_null_counterexample :
    (groupStacksByBlueprint [c6Stack]).map Group.ip = [none] ∧
    (groupStacksByBlueprint [c6Stack]).map Group.instanceType = ["unknown"] ∧
    (groupStacksByBlueprint [c6Stack]).map Group.maxPlayers = ["unknown"] := by
  refine ⟨?_, ?_, ?_⟩ <;> decide

/-- C6 amended: when a provisioning-role unit is attached, each pass-through
field is characterised exactly — it is populated with the unit's output value
whenever that output is present and nonempty, and otherwise (output absent,
or present but empty) instanceType and maxPlayers fall back to the "unknown"
sentinel while ip falls back to null (there is no deployment-template-input
fallback and no "unknown" sentinel for ip). -/
theorem group_pass_through_fields (g : Group) (s : Stack)
    (hname : nameContains s.name "opentofu" = true) :
    (∀ v, lookupLastOut (s.outputs.getD []) "ec2_ip" = some v → v ≠ "" →
        (attachMember g s).ip = some v) ∧
    (lookupLastOut (s.outputs.getD []) "ec2_ip" = none →
        (attachMember g s).ip = none) ∧
    (lookupLastOut (s.outputs.getD []) "ec2_ip" = some "" →
        (attachMember g s).ip = none) ∧
    (∀ v, lookupLastOut (s.outputs.getD []) "instance_type" = some v → v ≠ "" →
        (attachMember g s).instanceType = v) ∧
    (lookupLastOut (s.outputs.getD []) "instance_type" = none →
        (attachMember g s).instanceType = "unknown") ∧
    (lookupLastOut (s.outputs.getD []) "instance_type" = some "" →
        (attachMember g s).instanceType = "unknown") ∧
    (∀ v, lookupLastOut (s.outputs.getD []) "max_players" = some v → v ≠ "" →
        (attachMember g s).maxPlayers = v) ∧
    (lookupLastOut (s.outputs.getD []) "max_players" = none →
        (attachMember g s).maxPlayers = "unknown") ∧
    (lookupLastOut (s.outputs.getD []) "max_players" = some "" →
        (attachMember g s).maxPlayers = "unknown") := by
  unfold attachMember
  simp only [hname, if_true]
  refine ⟨fun v hv hne => by simp [jsOrNone, hv, hne],
    fun hv => by simp [jsOrNone, hv],
    fun hv => by simp [jsOrNone, hv],
    fun v hv hne => by simp [jsOrDefault, hv, hne],
    fun hv => by simp [jsOrDefault, hv],
    fun hv => by simp [jsOrDefault, hv],
    fun v hv hne => by simp [jsOrDefault, hv, hne],
    fun hv => by simp [jsOrDefault, hv],
    fun hv => by simp [jsOrDefault, hv]⟩

theorem group_pass_through_fields_witness :
    (attachMember (emptyGroup "ab12" "Blueprint-ab12" false) c5OpentofuStack).ip =
      some "1.2.3.4" ∧
    (attachMember (emptyGroup "ab12" "Blueprint-ab12" false)
      c5OpentofuStack).instanceType = "unknown" ∧
    (attachMember (emptyGroup "ab12" "Blueprint-ab12" false)
      c5OpentofuStack).maxPlayers = "unknown" :=
  ⟨(group_pass_through_fields (emptyGroup "ab12" "Blueprint-ab12" false)
      c5OpentofuStack (by decide)).1 "1.2.3.4" (by decide) (by decide),
   (group_pass_through_fields (emptyGroup "ab12" "Blueprint-ab12" false)
      c5OpentofuStack (by decide)).2.2.2.2.1 (by decide),
   (group_pass_through_fields (emptyGroup "ab12" "Blueprint-ab12" false)
      c5OpentofuStack (by decide)).2.2.2.2.2.2.2.1 (by decide)⟩

/-- C8: every output of the grouping function places every blueprint-token
group before every manual/individual group (no earlier group is manual while
a later one is not), and any two groups of the same partition appear in
lexicographic display-name order. -/
theorem group_output_ordering (sl : List Stack) :
    (groupStacksByBlueprint sl).Pairwise
      (fun a b => (a.isManual = false ∨ b.isManual = true) ∧
        (a.isManual = b.isManual → a.name ≤ b.name)) := by
  have hs : (groupStacksByBlueprint sl).Pairwise jsSortRel := by
    unfold groupStacksByBlueprint
    exact List.sorted_insertionSort jsSortRel _
  refine hs.imp ?_
  intro a b hab
  unfold jsSortRel jsSortLE at hab
  by_cases h : a.isManual = b.isManual
  · rw [if_pos h] at hab
    refine ⟨?_, fun _ => by simpa using hab⟩
    cases ha : a.isManual
    · exact Or.inl rfl
    · exact Or.inr (by rw [← h, ha])
  · rw [if_neg h] at hab
    exact ⟨Or.inl (by simpa using hab), fun hc => absurd hc h⟩

/-! ### Grouping invariants (towards permutation invariance) -/

theorem updateGroup_map_fst (k : String) (f : Group → Group)
    (l : List (String × Group)) :
    (updateGroup k f l).map Prod.fst = l.map Prod.fst := by
  induction l with
  | nil => rfl
  | cons p rest ih =>
    rcases p with ⟨k₀, g₀⟩
    unfold updateGroup
    by_cases h : k₀ = k <;> simp [h, ih]

theorem findGroup_eq_none_iff (k : String) (l : List (String × Group)) :
    findGroup k l = none ↔ k ∉ l.map Prod.fst := by
  induction l with
  | nil => simp [findGroup]
  | cons p rest ih =>
    rcases p with ⟨k₀, g₀⟩
    unfold findGroup
    by_cases h : k₀ = k
    · subst h
      simp
    · simp [h, ih, Ne.symm h]

theorem attachMember_id (g : Group) (s : Stack) :
    (attachMember g s).id = g.id := by
  cases h₁ : nameContains s.name "opentofu" <;>
    cases h₂ : nameContains s.name "ansible" <;>
      simp [attachMember, h₁, h₂]

theorem attachMember_opentofu (g : Group) (s : Stack) :
    (attachMember g s).opentofu = some (mkRef s) ∨
      (attachMember g s).opentofu = g.opentofu := by
  cases h₁ : nameContains s.name "opentofu" <;>
    cases h₂ : nameContains s.name "ansible" <;>
      simp [attachMember, h₁, h₂]

theorem attachMember_ansible (g : Group) (s : Stack) :
    (attachMember g s).ansible = some (mkRef s) ∨
      (attachMember g s).ansible = g.ansible := by
  cases h₁ : nameContains s.name "opentofu" <;>
    cases h₂ : nameContains s.name "ansible" <;>
      simp [attachMember, h₁, h₂]

theorem attachMember_slot (g : Group) (s : Stack) :
    (attachMember g s).opentofu.isSome ∨ (attachMember g s).ansible.isSome := by
  cases h₁ : nameContains s.name "opentofu" <;>
    cases h₂ : nameContains s.name "ansible" <;>
      simp [attachMember, h₁, h₂]

theorem mem_updateGroup (k : String) (f : Group → Group)
    (l : List (String × Group)) (hnd : (l.map Prod.fst).Nodup)
    (p : String × Group) (hp : p ∈ updateGroup k f l) :
    (p ∈ l ∧ p.1 ≠ k) ∨ ∃ g, (k, g) ∈ l ∧ p = (k, f g) := by
  induction l with
  | nil => simp [updateGroup] at hp
  | cons q rest ih =>
    rcases q with ⟨k₀, g₀⟩
    rw [List.map_cons, List.nodup_cons] at hnd
    unfold updateGroup at hp
    by_cases h : k₀ = k
    · subst h
      rw [if_pos rfl] at hp
      rcases List.mem_cons.mp hp with heq | hp
      · exact Or.inr ⟨g₀, .head _, heq⟩
      · refine Or.inl ⟨.tail _ hp, fun hk => hnd.1 ?_⟩
        exact List.mem_map.mpr ⟨p, hp, hk⟩
    · rw [if_neg h] at hp
      rcases List.mem_cons.mp hp with heq | hp
      · rw [heq]
        exact Or.inl ⟨.head _, h⟩
      · rcases ih hnd.2 hp with ⟨hm, hne⟩ | ⟨g, hg, hpe⟩
        · exact Or.inl ⟨.tail _ hm, hne⟩
        · exact Or.inr ⟨g, .tail _ hg, hpe⟩

theorem attachStack_map_fst (acc : List (String × Group)) (s : Stack) :
    (attachStack acc s).map Prod.fst =
      if deriveKey s = "" ∨ deriveKey s ∈ acc.map Prod.fst
      then acc.map Prod.fst
      else acc.map Prod.fst ++ [deriveKey s] := by
  unfold attachStack deriveKey
  by_cases h0 : (deriveGroupKey s.name).1 = ""
  · rw [if_pos h0, if_pos (Or.inl h0)]
  · rw [if_neg h0]
    cases hf : findGroup (deriveGroupKey s.name).1 acc with
    | none =>
      have hmem := (findGroup_eq_none_iff _ _).mp hf
      rw [if_neg (by tauto)]
      simp [updateGroup_map_fst]
    | some g =>
      have hmem : (deriveGroupKey s.name).1 ∈ acc.map Prod.fst := by
        by_contra hc
        rw [(findGroup_eq_none_iff _ _).mpr hc] at hf
        cases hf
      rw [if_pos (Or.inr hmem)]
      simp [updateGroup_map_fst]

theorem GroupOK_emptyGroup (v : List Stack) (k gname : String) (im : Bool) :
    GroupOK v k (emptyGroup k gname im) := by
  refine ⟨rfl, ?_, ?_⟩ <;> intro m hm <;> simp [emptyGroup] at hm

theorem GroupOK_attachMember (v : List Stack) (k : String) (g : Group)
    (s : Stack) (hs : s ∈ v) (hk : deriveKey s = k) (hg : GroupOK v k g) :
    GroupOK v k (attachMember g s) := by
  obtain ⟨hid, hot, han⟩ := hg
  refine ⟨(attachMember_id g s).trans hid, ?_, ?_⟩
  · intro m hm
    rcases attachMember_opentofu g s with he | he
    · rw [he] at hm
      exact ⟨s, hs, hk, Option.some.inj hm⟩
    · rw [he] at hm
      exact hot m hm
  · intro m hm
    rcases attachMember_ansible g s with he | he
    · rw [he] at hm
      exact ⟨s, hs, hk, Option.some.inj hm⟩
    · rw [he] at hm
      exact han m hm

theorem InvGroups_attachStack (v : List Stack) (acc : List (String × Group))
    (s : Stack) (hs : s ∈ v) (hinv : InvGroups v acc) :
    InvGroups v (attachStack acc s) := by
  obtain ⟨hnd, hmem⟩ := hinv
  have hkeys := attachStack_map_fst acc s
  unfold attachStack
  by_cases h0 : (deriveGroupKey s.name).1 = ""
  · rw [if_pos h0]
    exact ⟨hnd, hmem⟩
  · rw [if_neg h0]
    cases hf : findGroup (deriveGroupKey s.name).1 acc with
    | some g =>
      have hin : (deriveGroupKey s.name).1 ∈ acc.map Prod.fst := by
        by_contra hc
        rw [(findGroup_eq_none_iff _ _).mpr hc] at hf
        cases hf
      constructor
      · rw [updateGroup_map_fst]
        exact hnd
      · intro p hp
        rcases mem_updateGroup _ _ _ hnd p hp with ⟨hpl, _⟩ | ⟨g₀, hg₀, hpe⟩
        · exact hmem p hpl
        · subst hpe
          have hg₀ok := hmem _ hg₀
          refine ⟨GroupOK_attachMember v _ g₀ s hs rfl hg₀ok.1, ?_⟩
          rcases attachMember_slot g₀ s with h | h
          · exact Or.inl h
          · exact Or.inr h
    | none =>
      have hnotin : (deriveGroupKey s.name).1 ∉ acc.map Prod.fst :=
        (findGroup_eq_none_iff _ _).mp hf
      have hnd' :
          ((acc ++ [((deriveGroupKey s.name).1,
            emptyGroup (deriveGroupKey s.name).1 (deriveGroupKey s.name).2.1
              (deriveGroupKey s.name).2.2)]).map Prod.fst).Nodup := by
        rw [List.map_append]
        simp only [List.map_cons, List.map_nil]
        rw [List.nodup_append]
        refine ⟨hnd, List.nodup_singleton _, ?_⟩
        intro a ha hb
        simp only [List.mem_singleton] at hb
        exact hnotin (hb ▸ ha)
      constructor
      · rw [updateGroup_map_fst]
        exact hnd'
      · intro p hp
        rcases mem_updateGroup _ _ _ hnd' p hp with ⟨hpl, hpne⟩ | ⟨g₀, hg₀, hpe⟩
        · rcases List.mem_append.mp hpl with hpl | hpl
          · exact hmem p hpl
          · simp only [List.mem_singleton] at hpl
            subst hpl
            exact absurd rfl hpne
        · subst hpe
          rcases List.mem_append.mp hg₀ with hg₀ | hg₀
          · have hg₀ok := hmem _ hg₀
            refine ⟨GroupOK_attachMember v _ g₀ s hs rfl hg₀ok.1, ?_⟩
            rcases attachMember_slot g₀ s with h | h
            · exact Or.inl h
            · exact Or.inr h
          · simp only [List.mem_singleton, Prod.mk.injEq] at hg₀
            obtain ⟨_, hg₀⟩ := hg₀
            subst hg₀
            refine ⟨GroupOK_attachMember v _ _ s hs rfl (GroupOK_emptyGroup v _ _ _), ?_⟩
            rcases attachMember_slot _ s with h | h
            · exact Or.inl h
            · exact Or.inr h

theorem InvGroups_foldl (v : List Stack) (sl : List Stack)
    (acc : List (String × Group)) (hsub : ∀ x ∈ sl, x ∈ v)
    (hinv : InvGroups v acc) :
    InvGroups v (sl.foldl attachStack acc) := by
  induction sl generalizing acc with
  | nil => exact hinv
  | cons x rest ih =>
    exact ih _ (fun y hy => hsub y (.tail _ hy))
      (InvGroups_attachStack v acc x (hsub x (.head _)) hinv)

theorem keys_foldl_iff (sl : List Stack) (acc : List (String × Group))
    (k : String) :
    k ∈ (sl.foldl attachStack acc).map Prod.fst ↔
      k ∈ acc.map Prod.fst ∨ (k ≠ "" ∧ ∃ s, s ∈ sl ∧ deriveKey s = k) := by
  induction sl generalizing acc with
  | nil => simp
  | cons x rest ih =>
    rw [List.foldl_cons, ih, attachStack_map_fst]
    by_cases h : deriveKey x = "" ∨ deriveKey x ∈ acc.map Prod.fst
    · rw [if_pos h]
      constructor
      · rintro (hk | ⟨hne, s', hs', hkey⟩)
        · exact Or.inl hk
        · exact Or.inr ⟨hne, s', .tail _ hs', hkey⟩
      · rintro (hk | ⟨hne, s', hs', hkey⟩)
        · exact Or.inl hk
        · rcases List.mem_cons.mp hs' with heq | hs'
          · subst heq
            rcases h with h | h
            · exact absurd (hkey.symm.trans h) hne
            · exact Or.inl (hkey ▸ h)
          · exact Or.inr ⟨hne, s', hs', hkey⟩
    · rw [if_neg h]
      push_neg at h
      obtain ⟨hne0, hnotin⟩ := h
      constructor
      · rintro (hk | ⟨hne, s', hs', hkey⟩)
        · rcases List.mem_append.mp hk with hk | hk
          · exact Or.inl hk
          · simp only [List.mem_singleton] at hk
            subst hk
            exact Or.inr ⟨hne0, x, .head _, rfl⟩
        · exact Or.inr ⟨hne, s', .tail _ hs', hkey⟩
      · rintro (hk | ⟨hne, s', hs', hkey⟩)
        · exact Or.inl (List.mem_append.mpr (Or.inl hk))
        · rcases List.mem_cons.mp hs' with heq | hs'
          · subst heq
            refine Or.inl (List.mem_append.mpr (Or.inr ?_))
            simp [hkey]
          · exact Or.inr ⟨hne, s', hs', hkey⟩

theorem blueprintToken_deriveKey (s : Stack) (tok : String)
    (h : blueprintToken s.name = some tok) : deriveKey s = tok := by
  unfold deriveKey deriveGroupKey
  rw [h]

theorem blueprintToken_ne_empty (name tok : String)
    (h : blueprintToken name = some tok) : tok ≠ "" := by
  simp only [blueprintToken] at h
  split_ifs at h with h₁ h₂
  intro hc
  rw [hc] at h
  have hdata := congrArg String.data (Option.some.inj h)
  simp only at hdata
  rw [List.isEmpty_iff] at h₁
  exact h₁ (by simpa using hdata)

theorem InvGroups_buildGroups (l : List Stack) : InvGroups l (buildGroups l) := by
  unfold buildGroups
  refine InvGroups_foldl l l [] (fun x hx => hx) ?_
  unfold InvGroups
  exact ⟨by simp, by simp⟩

theorem keys_buildGroups_iff (sl : List Stack) (k : String) :
    k ∈ (buildGroups sl).map Prod.fst ↔
      k ≠ "" ∧ ∃ s, s ∈ sl ∧ deriveKey s = k := by
  unfold buildGroups
  rw [keys_foldl_iff]
  simp

theorem ids_perm_keys (l : List Stack) :
    ((groupStacksByBlueprint l).map Group.id).Perm
      ((buildGroups l).map Prod.fst) := by
  have h₁ : ((groupStacksByBlueprint l).map Group.id).Perm
      (((buildGroups l).map Prod.snd).map Group.id) :=
    (List.perm_insertionSort jsSortRel _).map Group.id
  have h₂ : ((buildGroups l).map Prod.snd).map Group.id =
      (buildGroups l).map Prod.fst := by
    rw [List.map_map]
    exact List.map_congr_left
      (fun p hp => ((InvGroups_buildGroups l).2 p hp).1.1)
  rw [h₂] at h₁
  exact h₁

/-- C7: the grouping of blueprint-token units is permutation invariant —
for any input list, a unit whose name carries blueprint token `tok` yields
exactly one output group keyed `tok` (whose member slots hold only units of
the input with that same derived key), and the multiset of output group keys
is unchanged under any permutation of the input. -/
theorem grouping_permutation_invariant (l₁ l₂ : List Stack)
    (hperm : l₁.Perm l₂) (s : Stack) (hs : s ∈ l₁) (tok : String)
    (htok : blueprintToken s.name = some tok) :
    ((groupStacksByBlueprint l₁).map Group.id).count tok = 1 ∧
    ((groupStacksByBlueprint l₁).map Group.id).Perm
      ((groupStacksByBlueprint l₂).map Group.id) ∧
    ∃ g, g ∈ groupStacksByBlueprint l₁ ∧ g.id = tok ∧
      ∃ s', s' ∈ l₁ ∧ deriveKey s' = tok ∧
        (g.opentofu = some (mkRef s') ∨ g.ansible = some (mkRef s')) := by
  have hInv₁ := InvGroups_buildGroups l₁
  have hInv₂ := InvGroups_buildGroups l₂
  have hkey : deriveKey s = tok := blueprintToken_deriveKey s tok htok
  have hne : tok ≠ "" := blueprintToken_ne_empty s.name tok htok
  have hmem₁ : tok ∈ (buildGroups l₁).map Prod.fst :=
    (keys_buildGroups_iff l₁ tok).mpr ⟨hne, s, hs, hkey⟩
  refine ⟨?_, ?_, ?_⟩
  · rw [(ids_perm_keys l₁).count_eq tok]
    exact List.count_eq_one_of_mem hInv₁.1 hmem₁
  · refine (ids_perm_keys l₁).trans (List.Perm.trans ?_ (ids_perm_keys l₂).symm)
    rw [List.perm_ext_iff_of_nodup hInv₁.1 hInv₂.1]
    intro a
    rw [keys_buildGroups_iff, keys_buildGroups_iff]
    constructor
    · rintro ⟨ha, s', hs', hk⟩
      exact ⟨ha, s', hperm.mem_iff.mp hs', hk⟩
    · rintro ⟨ha, s', hs', hk⟩
      exact ⟨ha, s', hperm.mem_iff.mpr hs', hk⟩
  · obtain ⟨p, hp, hptok⟩ := List.mem_map.mp hmem₁
    obtain ⟨hgok, hslot⟩ := hInv₁.2 p hp
    refine ⟨p.2, ?_, hptok ▸ hgok.1, ?_⟩
    · refine (List.perm_insertionSort jsSortRel _).mem_iff.mpr ?_
      exact List.mem_map_of_mem Prod.snd hp
    · rcases hslot with hso | hsa
      · obtain ⟨m, hm⟩ := Option.isSome_iff_exists.mp hso
        obtain ⟨s', hs', hk', hmk⟩ := hgok.2.1 m hm
        exact ⟨s', hs', hptok ▸ hk', Or.inl (by rw [hm, hmk])⟩
      · obtain ⟨m, hm⟩ := Option.isSome_iff_exists.mp hsa
        obtain ⟨s', hs', hk', hmk⟩ := hgok.2.2 m hm
        exact ⟨s', hs', hptok ▸ hk', Or.inr (by rw [hm, hmk])⟩

theorem grouping_permutation_invariant_witness :
    ((groupStacksByBlueprint [c5AnsibleStack, c5OpentofuStack]).map
      Group.id).count "ab12" = 1 ∧
    ((groupStacksByBlueprint [c5AnsibleStack, c5OpentofuStack]).map
      Group.id).Perm
      ((groupStacksByBlueprint [c5OpentofuStack, c5AnsibleStack]).map Group.id) ∧
    ∃ g, g ∈ groupStacksByBlueprint [c5AnsibleStack, c5OpentofuStack] ∧
      g.id = "ab12" ∧
      ∃ s', s' ∈ [c5AnsibleStack, c5OpentofuStack] ∧ deriveKey s' = "ab12" ∧
        (g.opentofu = some (mkRef s') ∨ g.ansible = some (mkRef s')) :=
  grouping_permutation_invariant [c5AnsibleStack, c5OpentofuStack]
    [c5OpentofuStack, c5AnsibleStack] (List.Perm.swap _ _ _)
    c5AnsibleStack (List.Mem.head _) "ab12" (by decide)

end Minesible
